import Mathlib

/-!
Verification of the MailSync automation pipeline (Gmail → Google Sheets
enrichment and idempotent-delivery system) against its specification.

The Python sources are shallowly embedded: pure functions become Lean
functions over `String` / `List Char` / `ℚ` / `Nat`; file-system effects
(the state ledger's persistence) become explicit state passing over a
small file-system record; the standard-library JSON (de)serializer, which
is not part of the repository, is abstracted as a parse/encode parameter.
-/

namespace MailSync

/-! ### StateManager (src/state_manager.py)

The ledger state mirrors the dict built in `StateManager.__init__` /
`_initialize_state`: a list of processed message ids, an optional
last-run timestamp, and a lifetime counter.  The counter is a Python
int that is only ever initialized to 0 and incremented, so `Nat` is
faithful for every state the class itself constructs. -/

structure LedgerState where
  processed_message_ids : List String
  last_run_timestamp : Option String
  total_emails_processed : Nat
deriving DecidableEq

/-- Ledger value produced by `StateManager._initialize_state` (also the
value `__init__` starts from before calling `load_state`). -/
def initialState : LedgerState :=
  { processed_message_ids := []
    last_run_timestamp := none
    total_emails_processed := 0 }

/-- Embedding of `StateManager.is_processed`: the Python membership test
`message_id in self.state['processed_message_ids']`. -/
def is_processed (s : LedgerState) (message_id : String) : Bool :=
  decide (message_id ∈ s.processed_message_ids)

/-- Embedding of `StateManager.mark_as_processed`: append the id and bump
the lifetime counter only when the id is not already present. -/
def mark_as_processed (s : LedgerState) (message_id : String) : LedgerState :=
  if is_processed s message_id then s
  else
    { s with
      processed_message_ids := s.processed_message_ids ++ [message_id]
      total_emails_processed := s.total_emails_processed + 1 }

/-- Embedding of `StateManager.filter_new_messages`: the list
comprehension `[m for m in message_ids if not self.is_processed(m)]`
(the `print` of the skipped count is effect-only and dropped). -/
def filter_new_messages (s : LedgerState) (message_ids : List String) : List String :=
  message_ids.filter (fun msg_id => ! is_processed s msg_id)

/-- Marking a whole batch, as the orchestrator's per-message loop in
`main.py` does (`state.mark_as_processed(message_id)` for each id). -/
def markAll (s : LedgerState) (ids : List String) : LedgerState :=
  ids.foldl mark_as_processed s

/-- Embedding of the Python slice `lst[-keep_count:]` for a list of
strings.  Python quirk transcribed faithfully: `-0 == 0`, so the slice
`lst[-0:]` is `lst[0:]`, i.e. the whole list. -/
def pyTailSlice (keep_count : Nat) (l : List String) : List String :=
  if keep_count = 0 then l else l.drop (l.length - keep_count)

/-- Embedding of `StateManager.remove_old_entries`: when more than
`keep_count` ids are stored, keep the slice `[-keep_count:]` and return
the number of removed entries; otherwise change nothing and return 0. -/
def remove_old_entries (s : LedgerState) (keep_count : Nat) : LedgerState × Nat :=
  if s.processed_message_ids.length > keep_count then
    ({ s with processed_message_ids := pyTailSlice keep_count s.processed_message_ids },
     s.processed_message_ids.length - keep_count)
  else (s, 0)

/-! #### Persistence

`save_state` touches the outside world: it writes the serialized state
to `state.json.tmp` and then calls `os.replace` onto `state.json`.  We
model the two files as an explicit record, the wall clock
(`datetime.now().isoformat()`) as a string parameter, the stdlib JSON
serializer as an `encode` parameter, and the point of failure as an
explicit outcome: either the temp-file write step raises (leaving
arbitrary partial bytes in the temp location and the durable location
untouched — `os.replace` was never reached, and the `except` block
returns `False`), or every step succeeds (the temp file is renamed onto
the durable file atomically and `True` is returned). -/

structure FS where
  durable : Option String
  temp : Option String
deriving DecidableEq

inductive SaveOutcome where
  | success : SaveOutcome
  | failWrite : Option String → SaveOutcome
deriving DecidableEq

/-- Embedding of `StateManager.save_state`.  Returns the Python return
value, the in-memory state after the call (the method sets
`last_run_timestamp` before writing, also on the failing path), and the
file system after the call. -/
def save_state (encode : LedgerState → String) (now : String)
    (s : LedgerState) (fs : FS) (o : SaveOutcome) : Bool × LedgerState × FS :=
  let s' := { s with last_run_timestamp := some now }
  match o with
  | .failWrite leftover => (false, s', { fs with temp := leftover })
  | .success => (true, s', { durable := some (encode s'), temp := none })

/-- Embedding of `StateManager.load_state` (run once from `__init__`).
`file` is the durable file's contents (`none` when `os.path.exists` is
false).  `parse` abstracts `json.load` *together with* the subsequent
shape access `state['processed_message_ids']` performed by the success
`print`: it returns `none` exactly when that sequence raises, which the
`except` arms turn into `_initialize_state()`.  A file that parses is
adopted as-is. -/
def load_state (parse : String → Option LedgerState) (file : Option String) : LedgerState :=
  match file with
  | none => initialState
  | some txt =>
    match parse txt with
    | none => initialState
    | some st => st

/-- Embedding of `StateManager.clear_state`: reset to the initial state,
then `save_state`. -/
def clear_state (encode : LedgerState → String) (now : String)
    (fs : FS) (o : SaveOutcome) : Bool × LedgerState × FS :=
  save_state encode now initialState fs o

/-! ### Theorems about the StateManager -/

theorem is_processed_iff (s : LedgerState) (i : String) :
    is_processed s i = true ↔ i ∈ s.processed_message_ids := by
  simp [is_processed]

theorem is_processed_mark_self (s : LedgerState) (i : String) :
    is_processed (mark_as_processed s i) i = true := by
  unfold mark_as_processed
  by_cases h : is_processed s i
  · rw [if_pos h]
    exact h
  · rw [if_neg h, is_processed_iff]
    simp

theorem is_processed_mark_mono (s : LedgerState) (i j : String)
    (h : is_processed s i = true) :
    is_processed (mark_as_processed s j) i = true := by
  unfold mark_as_processed
  by_cases hj : is_processed s j
  · simpa [hj]
  · rw [if_neg hj, is_processed_iff]
    rw [is_processed_iff] at h
    simp [h]

theorem is_processed_markAll_mono (ids : List String) (s : LedgerState) (i : String)
    (h : is_processed s i = true) :
    is_processed (markAll s ids) i = true := by
  induction ids generalizing s with
  | nil => exact h
  | cons a rest ih => exact ih _ (is_processed_mark_mono s i a h)

theorem is_processed_markAll_mem (ids : List String) (s : LedgerState) (i : String)
    (h : i ∈ ids) :
    is_processed (markAll s ids) i = true := by
  induction ids generalizing s with
  | nil => cases h
  | cons a rest ih =>
    rcases List.mem_cons.mp h with h' | h'
    · subst h'
      exact is_processed_markAll_mono rest _ i (is_processed_mark_self s i)
    · exact ih _ h'

/-- C1: `filter_new_messages` returns exactly the input ids that are not
in the processed set, in the input's relative order (it is a sublist of
the input); once every id of a batch has been marked processed —
in particular after a pipeline run that marked the whole batch —
filtering that batch again yields the empty list, so a second run
delivers zero new rows. -/
theorem filter_new_messages_spec (s : LedgerState) (ids : List String) :
    (filter_new_messages s ids).Sublist ids
    ∧ (∀ i, i ∈ filter_new_messages s ids ↔ i ∈ ids ∧ is_processed s i = false)
    ∧ filter_new_messages (markAll s ids) ids = [] := by
  refine ⟨List.filter_sublist ids, fun i => ?_, ?_⟩
  · unfold filter_new_messages
    rw [List.mem_filter]
    constructor
    · rintro ⟨hmem, hb⟩
      exact ⟨hmem, by simpa using hb⟩
    · rintro ⟨hmem, hb⟩
      exact ⟨hmem, by simpa using hb⟩
  · unfold filter_new_messages
    rw [List.filter_eq_nil_iff]
    intro a ha
    simp [is_processed_markAll_mem ids s a ha]

/-- C2: `save_state` follows the write-temp-then-atomically-replace
protocol.  If the write step fails before the replace, the durable file
is bit-for-bit unchanged (hence anything loadable from it before is
still loadable, with the same resulting state) and the method returns
`False`; on success it returns `True` and the durable file holds the
fresh serialized state. -/
theorem save_state_atomic (encode : LedgerState → String) (now : String)
    (s : LedgerState) (fs : FS) :
    (∀ leftover, (save_state encode now s fs (.failWrite leftover)).1 = false)
    ∧ (∀ leftover,
        (save_state encode now s fs (.failWrite leftover)).2.2.durable = fs.durable)
    ∧ (∀ leftover (parse : String → Option LedgerState),
        load_state parse (save_state encode now s fs (.failWrite leftover)).2.2.durable
          = load_state parse fs.durable)
    ∧ (save_state encode now s fs .success).1 = true
    ∧ (save_state encode now s fs .success).2.2.durable
        = some (encode { s with last_run_timestamp := some now }) := by
  exact ⟨fun _ => rfl, fun _ => rfl, fun _ _ => rfl, rfl, rfl⟩

/-- C3: `load_state` is total (the embedding returns a state for every
file condition — in the source every raising path is caught): a missing
file yields the empty initial state, contents on which the
load-and-validate step fails yield the empty initial state, and contents
that load successfully are adopted as-is. -/
theorem load_state_spec (parse : String → Option LedgerState) :
    load_state parse none = initialState
    ∧ (∀ txt, parse txt = none → load_state parse (some txt) = initialState)
    ∧ (∀ txt st, parse txt = some st → load_state parse (some txt) = st) := by
  refine ⟨rfl, fun txt h => ?_, fun txt st h => ?_⟩
  · simp [load_state, h]
  · simp [load_state, h]

/-- Witness for `load_state_spec` at concrete inputs. -/
theorem load_state_spec_witness :
    load_state (fun _ => none) none = initialState
    ∧ load_state (fun _ => none) (some "garbage") = initialState
    ∧ load_state (fun _ => some initialState) (some "ok") = initialState := by
  exact ⟨(load_state_spec (fun _ => none)).1,
    (load_state_spec (fun _ => none)).2.1 "garbage" rfl,
    (load_state_spec (fun _ => some initialState)).2.2 "ok" initialState rfl⟩

/-- Concrete one-id ledger used by witnesses. -/
def exLedgerA : LedgerState :=
  { processed_message_ids := ["a"]
    last_run_timestamp := none
    total_emails_processed := 1 }

/-- Concrete two-id ledger used by witnesses. -/
def exLedgerAB : LedgerState :=
  { processed_message_ids := ["a", "b"]
    last_run_timestamp := none
    total_emails_processed := 2 }

/-- C8: `mark_as_processed` is idempotent — marking twice equals marking
once; for an id already in the processed list the whole state is
unchanged; for a new id exactly that id is appended once and the
lifetime counter grows by exactly one (the timestamp is untouched). -/
theorem mark_as_processed_spec (s : LedgerState) (i : String) :
    mark_as_processed (mark_as_processed s i) i = mark_as_processed s i
    ∧ (is_processed s i = true → mark_as_processed s i = s)
    ∧ (is_processed s i = false →
        (mark_as_processed s i).processed_message_ids
            = s.processed_message_ids ++ [i]
          ∧ (mark_as_processed s i).total_emails_processed
            = s.total_emails_processed + 1
          ∧ (mark_as_processed s i).last_run_timestamp = s.last_run_timestamp) := by
  refine ⟨?_, fun h => ?_, fun h => ?_⟩
  · have h2 := is_processed_mark_self s i
    conv_lhs => rw [mark_as_processed]
    rw [if_pos h2]
  · unfold mark_as_processed
    rw [if_pos h]
  · unfold mark_as_processed
    rw [if_neg (by simp [h])]
    exact ⟨rfl, rfl, rfl⟩

/-- Witness for `mark_as_processed_spec`: both conditional branches
discharged at concrete ledgers. -/
theorem mark_as_processed_spec_witness :
    mark_as_processed exLedgerA "a" = exLedgerA
    ∧ (mark_as_processed initialState "a").processed_message_ids
        = initialState.processed_message_ids ++ ["a"]
    ∧ (mark_as_processed initialState "a").total_emails_processed
        = initialState.total_emails_processed + 1 := by
  exact ⟨(mark_as_processed_spec exLedgerA "a").2.1 (by decide),
    ((mark_as_processed_spec initialState "a").2.2 (by decide)).1,
    ((mark_as_processed_spec initialState "a").2.2 (by decide)).2.1⟩

/-! ### C10: ledger invariant -/

/-- Invariant of the ledger: no duplicate processed ids, and the
lifetime counter dominates the current list length. -/
def LedgerInv (s : LedgerState) : Prop :=
  s.processed_message_ids.Nodup
    ∧ s.processed_message_ids.length ≤ s.total_emails_processed

theorem ledgerInv_initial : LedgerInv initialState :=
  ⟨List.nodup_nil, Nat.le_refl 0⟩

theorem ledgerInv_mark (s : LedgerState) (i : String) (h : LedgerInv s) :
    LedgerInv (mark_as_processed s i) := by
  obtain ⟨hnd, hlen⟩ := h
  unfold mark_as_processed
  by_cases hc : is_processed s i
  · rw [if_pos hc]
    exact ⟨hnd, hlen⟩
  · rw [if_neg hc]
    constructor
    · rw [List.nodup_append]
      refine ⟨hnd, List.nodup_singleton i, ?_⟩
      intro a ha hb
      rw [List.mem_singleton] at hb
      subst hb
      rw [is_processed_iff] at hc
      exact hc ha
    · simpa using Nat.add_le_add_right hlen 1

theorem ledgerInv_remove_old (s : LedgerState) (k : Nat) (h : LedgerInv s) :
    LedgerInv (remove_old_entries s k).1 := by
  obtain ⟨hnd, hlen⟩ := h
  unfold remove_old_entries
  by_cases hc : s.processed_message_ids.length > k
  · rw [if_pos hc]
    unfold pyTailSlice
    by_cases hk : k = 0
    · rw [if_pos hk]
      exact ⟨hnd, hlen⟩
    · rw [if_neg hk]
      refine ⟨(List.drop_sublist _ _).nodup hnd, ?_⟩
      calc (s.processed_message_ids.drop (s.processed_message_ids.length - k)).length
          ≤ s.processed_message_ids.length := by
            rw [List.length_drop]
            exact Nat.sub_le _ _
        _ ≤ s.total_emails_processed := hlen
  · rw [if_neg hc]
    exact ⟨hnd, hlen⟩

/-- C10 (amended): from the empty initial state, every StateManager
operation preserves the invariant "no duplicate processed ids and
lifetime counter ≥ current list length"; `remove_old_entries` never
changes the lifetime counter, and for every `keep_count ≥ 1` it keeps
exactly the most recent `keep_count` ids in their original relative
order (a suffix of the list).  For `keep_count = 0` the Python slice
`[-0:]` keeps the whole list, so the "keeps only the most recent
keep_count ids" clause of the original claim fails there — see the
counterexample. -/
theorem ledger_invariant_spec (s : LedgerState) (i now : String) (k : Nat)
    (encode : LedgerState → String) (fs : FS) (o : SaveOutcome)
    (h : LedgerInv s) :
    LedgerInv initialState
    ∧ LedgerInv (mark_as_processed s i)
    ∧ LedgerInv (remove_old_entries s k).1
    ∧ (remove_old_entries s k).1.total_emails_processed = s.total_emails_processed
    ∧ (1 ≤ k → (remove_old_entries s k).1.processed_message_ids
        = s.processed_message_ids.drop (s.processed_message_ids.length - k))
    ∧ LedgerInv (save_state encode now s fs o).2.1
    ∧ LedgerInv (clear_state encode now fs o).2.1 := by
  obtain ⟨hnd, hlen⟩ := h
  refine ⟨ledgerInv_initial, ledgerInv_mark s i ⟨hnd, hlen⟩,
    ledgerInv_remove_old s k ⟨hnd, hlen⟩, ?_, ?_, ?_, ?_⟩
  · unfold remove_old_entries
    by_cases hc : s.processed_message_ids.length > k
    · rw [if_pos hc]
    · rw [if_neg hc]
  · intro hk
    unfold remove_old_entries pyTailSlice
    have hk0 : ¬ k = 0 := by omega
    by_cases hc : s.processed_message_ids.length > k
    · rw [if_pos hc]
      simp [hk0]
    · rw [if_neg hc]
      have hz : s.processed_message_ids.length - k = 0 := by omega
      rw [hz, List.drop_zero]
  · unfold save_state
    cases o <;> exact ⟨hnd, hlen⟩
  · unfold clear_state save_state
    cases o <;> exact ⟨List.nodup_nil, Nat.le_refl 0⟩

/-- Witness for `ledger_invariant_spec` at a concrete ledger, keep
count, and save outcome. -/
theorem ledger_invariant_spec_witness :
    LedgerInv initialState
    ∧ LedgerInv (mark_as_processed exLedgerAB "c")
    ∧ LedgerInv (remove_old_entries exLedgerAB 1).1
    ∧ (remove_old_entries exLedgerAB 1).1.total_emails_processed
        = exLedgerAB.total_emails_processed
    ∧ (1 ≤ 1 → (remove_old_entries exLedgerAB 1).1.processed_message_ids
        = exLedgerAB.processed_message_ids.drop
            (exLedgerAB.processed_message_ids.length - 1))
    ∧ LedgerInv (save_state (fun _ => "enc") "t" exLedgerAB
        { durable := none, temp := none } .success).2.1
    ∧ LedgerInv (clear_state (fun _ => "enc") "t"
        { durable := none, temp := none } .success).2.1 :=
  ledger_invariant_spec exLedgerAB "c" "t" 1
    (fun _ => "enc") { durable := none, temp := none } .success
    ⟨by decide, by decide⟩

/-- C10 counterexample to the original claim: with `keep_count = 0` and
a one-element processed list, `remove_old_entries` reports one removed
entry yet keeps the whole list (Python `lst[-0:]` is `lst`), so it does
not "keep only the most recent keep_count ids". -/
theorem remove_old_entries_keep0_counterexample :
    (remove_old_entries exLedgerA 0).1.processed_message_ids = ["a"]
    ∧ (remove_old_entries exLedgerA 0).2 = 1
    ∧ (["a"] : List String) ≠ [] := by
  exact ⟨by decide, by decide, by decide⟩

/-! ### String helpers shared by the extractors

Python string primitives used by the sources, transcribed for the ASCII
range that all configured keywords, rule patterns and claim inputs live
in (`str.lower` additionally folds non-ASCII letters; those are modelled
as fixed points, which is exact for every string appearing in the
claims and in the repository's configuration). -/

/-- ASCII case folding of one character (Python `str.lower`). -/
def lowerChar (c : Char) : Char :=
  if 'A' ≤ c ∧ c ≤ 'Z' then Char.ofNat (c.toNat + 32) else c

/-- Python `str.lower`. -/
def pyLower (s : String) : String :=
  String.mk (s.toList.map lowerChar)

/-- Substring search over character lists. -/
def listHasSub (needle : List Char) : List Char → Bool
  | [] => needle.isPrefixOf []
  | c :: t => needle.isPrefixOf (c :: t) || listHasSub needle t

/-- Python `needle in hay` substring containment on strings. -/
def strHasSub (hay needle : String) : Bool :=
  listHasSub needle.toList hay.toList


/-! ### Categorizer (src/categorizer.py)

`categorize_email` walks `config.CATEGORY_RULES` (an ordered table; the
committed `config.py` does not define it, so the table is a parameter of
the embedding, exactly as the function treats it) and returns the first
category whose sender patterns hit the sender field or whose keywords
hit the combined search string; the fallback is `'Other'`. -/

structure CategoryRule where
  senders : List String
  keywords : List String
deriving DecidableEq

structure ParsedEmail where
  sender : String
  subject : String
  content : String
deriving DecidableEq

/-- Combined lower-cased search string `f"{subject} {content} {sender}"`
built by `categorize_email`. -/
def searchableText (e : ParsedEmail) : String :=
  pyLower e.subject ++ " " ++ pyLower e.content ++ " " ++ pyLower e.sender

/-- One loop iteration's test: any sender pattern is a substring of the
lower-cased sender, or any keyword is a substring of the search string
(the two `any(...)` checks of the loop body; both arms return the same
category, so their disjunction decides the iteration). -/
def ruleMatches (sender searchable : String) (r : CategoryRule) : Bool :=
  r.senders.any (fun pattern => strHasSub sender (pyLower pattern))
    || r.keywords.any (fun kw => strHasSub searchable (pyLower kw))

/-- Loop of `categorize_email` over the ordered rule table. -/
def categorizeFrom (sender searchable : String) :
    List (String × CategoryRule) → String
  | [] => "Other"
  | (cat, r) :: rest =>
    if ruleMatches sender searchable r then cat
    else categorizeFrom sender searchable rest

/-- Embedding of `categorize_email`. -/
def categorize_email (rules : List (String × CategoryRule)) (e : ParsedEmail) : String :=
  categorizeFrom (pyLower e.sender) (searchableText e) rules

/-- C4: categories are tried in declaration order and the first category
whose sender patterns or keywords match wins, so an earlier category's
keyword match beats a later category's sender match.  Instantiated by
the witness at the spec's example table
`[("Banking", keywords=["debited"]), ("Internship", senders=["unstop.com"])]`
with sender `noreply@unstop.com` and body "your account was debited",
which yields "Banking". -/
theorem categorize_email_first_match (pre : List (String × CategoryRule))
    (cat : String) (r : CategoryRule) (post : List (String × CategoryRule))
    (e : ParsedEmail)
    (hpre : ∀ p ∈ pre, ruleMatches (pyLower e.sender) (searchableText e) p.2 = false)
    (hr : ruleMatches (pyLower e.sender) (searchableText e) r = true) :
    categorize_email (pre ++ (cat, r) :: post) e = cat := by
  unfold categorize_email
  induction pre with
  | nil =>
    rw [List.nil_append]
    simp only [categorizeFrom]
    rw [if_pos hr]
  | cons p rest ih =>
    obtain ⟨pc, pr⟩ := p
    rw [List.cons_append]
    simp only [categorizeFrom]
    rw [if_neg (by
      have hm := hpre (pc, pr) (List.mem_cons_self _ _)
      simp only at hm
      simp [hm])]
    exact ih (fun q hq => hpre q (List.mem_cons_of_mem _ hq))

/-- Spec's example rule table for C4. -/
def exRules : List (String × CategoryRule) :=
  [("Banking", { senders := [], keywords := ["debited"] }),
   ("Internship", { senders := ["unstop.com"], keywords := [] })]

/-- Email from `noreply@unstop.com` whose body says the account was
debited. -/
def exEmail : ParsedEmail :=
  { sender := "noreply@unstop.com"
    subject := ""
    content := "your account was debited" }

/-- Witness for `categorize_email_first_match`: the spec's rule-precedence
example resolves to "Banking", not "Internship". -/
theorem categorize_email_first_match_witness :
    categorize_email exRules exEmail = "Banking" :=
  categorize_email_first_match []
    "Banking" { senders := [], keywords := ["debited"] }
    [("Internship", { senders := ["unstop.com"], keywords := [] })]
    exEmail (by simp) (by decide)


/-! ### SentimentAnalyzer rule path (src/sentiment_analyzer.py)

`_analyze_with_rules` counts hits of three keyword lists in the
lower-cased `f"{subject} {content}"`, picks a sentiment and a base
urgency score, then applies two additive boosts clamped at 1.0, and
finally Python's `round(score, 2)`.  Scores are embedded as exact
rationals; `round(·, 2)` is embedded as `⌊100x + 1/2⌋/100`, which agrees
with Python's float rounding on every score the function can build (all
are multiples of 1/10, never a tie case). -/

def urgent_keywords : List String :=
  ["urgent", "asap", "immediately", "emergency", "critical",
   "time-sensitive", "deadline", "expires", "last chance",
   "act now", "hurry", "quick", "fast", "important"]

def negative_keywords : List String :=
  ["problem", "issue", "error", "failed", "rejected",
   "denied", "declined", "cancelled", "suspended",
   "overdue", "late", "missed", "wrong", "mistake"]

def positive_keywords : List String :=
  ["congratulations", "approved", "accepted", "selected",
   "success", "completed", "confirmed", "thank you",
   "great", "excellent", "wonderful", "pleased"]

/-- Number of keywords of `kws` occurring in `text`
(`sum(1 for kw in kws if kw in text)`). -/
def countKeywordsIn (kws : List String) (text : String) : Nat :=
  (kws.filter (fun kw => strHasSub text kw)).length

/-- Python `round(x, 2)` on the scores reachable in
`_analyze_with_rules` (see section comment). -/
def round2 (x : ℚ) : ℚ :=
  (⌊x * 100 + 1/2⌋ : ℚ) / 100

structure SentimentResult where
  sentiment : String
  urgency_score : ℚ
deriving DecidableEq

/-- Embedding of `SentimentAnalyzer._analyze_with_rules`. -/
def analyze_with_rules (subject content : String) : SentimentResult :=
  let combined_text := pyLower (subject ++ " " ++ content)
  let urgency_count := countKeywordsIn urgent_keywords combined_text
  let negative_count := countKeywordsIn negative_keywords combined_text
  let positive_count := countKeywordsIn positive_keywords combined_text
  let base : String × ℚ :=
    if urgency_count ≥ 2 then ("urgent", 9/10)
    else if negative_count > positive_count then ("negative", 6/10)
    else if positive_count > negative_count then ("positive", 3/10)
    else ("neutral", 5/10)
  let score1 : ℚ :=
    if strHasSub subject "!" || strHasSub combined_text "!!" then
      min 1 (base.2 + 2/10)
    else base.2
  let score2 : ℚ :=
    if strHasSub combined_text "by tomorrow" || strHasSub combined_text "by today" then
      min 1 (score1 + 3/10)
    else score1
  { sentiment := base.1, urgency_score := round2 score2 }

/-- C7: with at least two distinct urgent keywords present and no
negative or positive keywords, the rule-based analysis reports sentiment
"urgent" with urgency score at least 0.9 (the base is 0.9 and the two
post-adjustments only add, clamped at 1.0). -/
theorem sentiment_urgent_boundary (subject content : String)
    (hu : 2 ≤ countKeywordsIn urgent_keywords (pyLower (subject ++ " " ++ content)))
    (hn : countKeywordsIn negative_keywords (pyLower (subject ++ " " ++ content)) = 0)
    (hp : countKeywordsIn positive_keywords (pyLower (subject ++ " " ++ content)) = 0) :
    (analyze_with_rules subject content).sentiment = "urgent"
    ∧ 9/10 ≤ (analyze_with_rules subject content).urgency_score := by
  simp only [analyze_with_rules]
  rw [if_pos hu]
  constructor
  · rfl
  · split_ifs <;> norm_num [round2, min_def]

/-- Witness for `sentiment_urgent_boundary`: the subject
"urgent deadline" holds exactly the two urgent keywords "urgent" and
"deadline" and no negative or positive keyword. -/
theorem sentiment_urgent_boundary_witness :
    (analyze_with_rules "urgent deadline" "").sentiment = "urgent"
    ∧ 9/10 ≤ (analyze_with_rules "urgent deadline" "").urgency_score :=
  sentiment_urgent_boundary "urgent deadline" ""
    (by decide) (by decide) (by decide)


/-! ### Email parser text cleanup (src/email_parser.py, clean_text)

`clean_text` collapses runs of blank lines (`re.sub(r'\n\s*\n\s*\n',
'\n\n', text)` — a match is a newline whose maximal whitespace run
contains at least three newlines; the greedy match extends through the
run's last newline and is replaced by two), strips every line, strips
the whole text, and finally truncates to 45,000 characters with a
visible marker.  Python's `\s` on ASCII is space, tab, newline,
carriage return, vertical tab and form feed. -/

def isPySpace (c : Char) : Bool :=
  c = ' ' || c = '\t' || c = '\n' || c = '\r' || c = '\x0b' || c = '\x0c'

/-- Python `str.strip()`. -/
def pyStripChars (l : List Char) : List Char :=
  ((l.dropWhile isPySpace).reverse.dropWhile isPySpace).reverse

/-- Length of the run `l` up to and including its last newline. -/
def lenThroughLastNewline (l : List Char) : Nat :=
  l.length - (l.reverse.takeWhile (fun c => ! (c = '\n'))).length

/-- Fueled scanner for `re.sub(r'\n\s*\n\s*\n', '\n\n', text)`: at a
newline whose maximal whitespace run holds ≥ 3 newlines, the (greedy)
match spans through the run's last newline and is rewritten to two
newlines; scanning resumes after the match.  The fuel bounds the number
of steps; each step consumes at least one character, so `l.length` fuel
processes all of `l`. -/
def collapseBlankLinesGo : Nat → List Char → List Char
  | 0, l => l
  | _ + 1, [] => []
  | fuel + 1, c :: rest =>
    if c = '\n' then
      let run := (c :: rest).takeWhile isPySpace
      if 3 ≤ (run.filter (fun x => x = '\n')).length then
        '\n' :: '\n' :: collapseBlankLinesGo fuel ((c :: rest).drop (lenThroughLastNewline run))
      else c :: collapseBlankLinesGo fuel rest
    else c :: collapseBlankLinesGo fuel rest

def collapseBlankLines (l : List Char) : List Char :=
  collapseBlankLinesGo l.length l

/-- Marker appended by `clean_text` when the 45,000-character cap is
exceeded. -/
def truncationMarker : List Char :=
  ("\n\n[Content truncated - exceeded 45,000 characters]").toList

/-- Whitespace normalization part of `clean_text` (everything before the
truncation step): collapse blank-line runs, strip each line, rejoin with
newlines, strip the whole text. -/
def normalizeText (text : List Char) : List Char :=
  pyStripChars
    (List.intercalate ['\n'] ((List.splitOn '\n' (collapseBlankLines text)).map pyStripChars))

/-- Embedding of `clean_text`. -/
def clean_text (text : List Char) : List Char :=
  let t1 := collapseBlankLines text
  let t2 := List.intercalate ['\n'] ((List.splitOn '\n' t1).map pyStripChars)
  let t3 := pyStripChars t2
  if 45000 < t3.length then t3.take 45000 ++ truncationMarker else t3

/-- C9: when the cleaned text exceeds 45,000 characters, `clean_text`
returns its first 45,000 characters followed by the visible truncation
marker; at or under the cap the cleaned text is returned unchanged.  In
every case the output starts with the first 45,000 characters of the
cleaned text (nothing is silently dropped) and is bounded by the cap
plus the marker length. -/
theorem clean_text_spec (text : List Char) :
    clean_text text
      = (if 45000 < (normalizeText text).length
          then (normalizeText text).take 45000 ++ truncationMarker
          else normalizeText text)
    ∧ (∃ tail, clean_text text = (normalizeText text).take 45000 ++ tail)
    ∧ (clean_text text).length ≤ 45000 + truncationMarker.length := by
  have hc : clean_text text
      = (if 45000 < (normalizeText text).length
          then (normalizeText text).take 45000 ++ truncationMarker
          else normalizeText text) := rfl
  refine ⟨hc, ?_, ?_⟩
  · by_cases h : 45000 < (normalizeText text).length
    · exact ⟨truncationMarker, by rw [hc, if_pos h]⟩
    · refine ⟨[], ?_⟩
      rw [hc, if_neg h, List.append_nil, List.take_of_length_le (by omega)]
  · by_cases h : 45000 < (normalizeText text).length
    · rw [hc, if_pos h, List.length_append, List.length_take]
      omega
    · rw [hc, if_neg h]
      omega

/-! ### Date resolution (src/action_extractor.py)

`_extract_deadline` runs three date regexes over the (already
lower-cased) combined text, feeds the first match of the first matching
pattern class to `_parse_date_string` (CPython `strptime` over a fixed
format list), and otherwise falls through to relative-date phrases and
`_get_relative_date` (which reads the current date — here an explicit
`today` parameter).  The regex and `strptime` directive semantics are
transcribed for lower-case ASCII input, which is what
`_extract_with_rules` always passes. -/

structure Date where
  year : Nat
  month : Nat
  day : Nat
deriving DecidableEq

def isLeapYear (y : Nat) : Bool :=
  (y % 4 = 0 && y % 100 ≠ 0) || y % 400 = 0

def daysInMonth (y m : Nat) : Nat :=
  if m = 2 then (if isLeapYear y then 29 else 28)
  else if m = 4 ∨ m = 6 ∨ m = 9 ∨ m = 11 then 30
  else 31

/-- Python `datetime.weekday()`: Monday = 0 … Sunday = 6 (computed via
Zeller's congruence, with `−2J` replaced by the congruent `+5J` to stay
in `Nat`). -/
def pyWeekday (d : Date) : Nat :=
  let y := if d.month ≤ 2 then d.year - 1 else d.year
  let m := if d.month ≤ 2 then d.month + 12 else d.month
  let K := y % 100
  let J := y / 100
  let h := (d.day + (13 * (m + 1)) / 5 + K + K / 4 + J / 4 + 5 * J) % 7
  (h + 5) % 7

/-- One day later (`timedelta(days=1)` on a valid date). -/
def nextDay (d : Date) : Date :=
  if d.day < daysInMonth d.year d.month then { d with day := d.day + 1 }
  else if d.month < 12 then { year := d.year, month := d.month + 1, day := 1 }
  else { year := d.year + 1, month := 1, day := 1 }

/-- `today + timedelta(days=n)`. -/
def addDays (n : Nat) (d : Date) : Date :=
  match n with
  | 0 => d
  | k + 1 => addDays k (nextDay d)

/-- One day earlier (`- timedelta(days=1)`), used by the end-of-month
branch. -/
def prevDay (d : Date) : Date :=
  if 1 < d.day then { d with day := d.day - 1 }
  else if 1 < d.month then
    { year := d.year, month := d.month - 1, day := daysInMonth d.year (d.month - 1) }
  else { year := d.year - 1, month := 12, day := 31 }

def pad2 (n : Nat) : String :=
  if n < 10 then "0" ++ toString n else toString n

def pad4 (n : Nat) : String :=
  if n < 10 then "000" ++ toString n
  else if n < 100 then "00" ++ toString n
  else if n < 1000 then "0" ++ toString n
  else toString n

/-- `strftime('%Y-%m-%d')`. -/
def formatDate (d : Date) : String :=
  pad4 d.year ++ "-" ++ pad2 d.month ++ "-" ++ pad2 d.day

def weekdayNames : List String :=
  ["monday", "tuesday", "wednesday", "thursday", "friday", "saturday", "sunday"]

/-- Embedding of `ActionExtractor._get_relative_date` with the wall
clock (`datetime.now()`) as the explicit `today` parameter. -/
def get_relative_date (today : Date) (relative_type : String) : String :=
  if relative_type = "tomorrow" then formatDate (addDays 1 today)
  else if relative_type ∈ ["monday", "tuesday", "wednesday", "thursday", "friday"] then
    let target_day := weekdayNames.indexOf relative_type
    let current_day := pyWeekday today
    let days_ahead := (target_day + 7 - current_day) % 7
    let days_ahead := if days_ahead = 0 then 7 else days_ahead
    formatDate (addDays days_ahead today)
  else if relative_type = "week" then formatDate (addDays 7 today)
  else if relative_type = "month" then
    if today.month = 12 then formatDate (prevDay { year := today.year + 1, month := 1, day := 1 })
    else formatDate (prevDay { year := today.year, month := today.month + 1, day := 1 })
  else "None"

/-! #### Regex matchers (lower-case ASCII input) -/

def digitVal (c : Char) : Nat := c.toNat - '0'.toNat

def isLowerAZ (c : Char) : Bool := 'a' ≤ c && c ≤ 'z'

def isWordChar (c : Char) : Bool := c.isAlpha || c.isDigit || c = '_'

/-- Character after offset `n` is absent or a non-word character
(regex `\b` on the right edge of a word). -/
def boundaryAfterAt (l : List Char) (n : Nat) : Bool :=
  match l.drop n with
  | [] => true
  | c :: _ => ! isWordChar c

def containsWordGo (word : List Char) (prevIsWord : Bool) : List Char → Bool
  | [] => false
  | c :: t =>
    if ! prevIsWord && word.isPrefixOf (c :: t) && boundaryAfterAt (c :: t) word.length then
      true
    else containsWordGo word (isWordChar c) t

/-- `re.search(r'\b(?:by |before |until )?(?:this )?WORD\b', text)` is
non-none exactly when WORD occurs delimited by word boundaries (the
optional prefixes are skippable and themselves end right before WORD). -/
def containsWord (text word : List Char) : Bool :=
  containsWordGo word false text

/-- Analogue for the pattern `...week(?:end)?\b`: a boundary-delimited
occurrence of `week` or of `weekend`. -/
def containsWeekWordGo (prevIsWord : Bool) : List Char → Bool
  | [] => false
  | c :: t =>
    if ! prevIsWord && ("week".toList.isPrefixOf (c :: t))
        && (boundaryAfterAt (c :: t) 4
            || ("end".toList.isPrefixOf ((c :: t).drop 4) && boundaryAfterAt (c :: t) 7)) then
      true
    else containsWeekWordGo (isWordChar c) t

def containsWeekWord (text : List Char) : Bool :=
  containsWeekWordGo false text

/-- Leftmost-match scan: try the single-position matcher at every start
position, left to right (`re.findall(...)[0]`). -/
def findFirstMatch (matchAt : List Char → Option (List Char)) : List Char → Option (List Char)
  | [] => matchAt []
  | c :: t =>
    match matchAt (c :: t) with
    | some m => some m
    | none => findFirstMatch matchAt t

/-- Match of pattern 1, digits-separator-digits-separator-year
(`\d` one or two, a slash or dash, `\d` one or two, a slash or dash,
`\d` two to four) anchored at the start of
`l`.  A leading digit run longer than 2 can never be completed (after
backtracking the next character is still a digit, not a separator), so
the run must have length 1 or 2 and be followed by a separator; the
trailing year run takes up to 4 digits greedily. -/
def matchNumericDateAt (l : List Char) : Option (List Char) :=
  let d1 := l.takeWhile Char.isDigit
  let r1 := l.dropWhile Char.isDigit
  if d1.length = 0 || 2 < d1.length then none
  else
    match r1 with
    | s1 :: r2 =>
      if s1 = '/' || s1 = '-' then
        let d2 := r2.takeWhile Char.isDigit
        let r3 := r2.dropWhile Char.isDigit
        if d2.length = 0 || 2 < d2.length then none
        else
          match r3 with
          | s2 :: r4 =>
            if s2 = '/' || s2 = '-' then
              let d3 := r4.takeWhile Char.isDigit
              if d3.length < 2 then none
              else some (d1 ++ s1 :: d2 ++ s2 :: d3.take 4)
            else none
          | [] => none
      else none
    | [] => none

def monthTokens : List String :=
  ["jan", "feb", "mar", "apr", "may", "jun", "jul", "aug", "sep", "oct", "nov", "dec"]

/-- First month abbreviation that is a prefix of `l` (regex alternation
`(?:jan|feb|...)`, lower-cased input); returns the 3-char token and the
rest. -/
def matchMonthToken (l : List Char) : Option (List Char × List Char) :=
  match monthTokens.find? (fun t => t.toList.isPrefixOf l) with
  | some t => some (t.toList, l.drop 3)
  | none => none

/-- Ordinal suffix `(?:st|nd|rd|th)?` — greedy optional. -/
def matchOrdinalSuffix (l : List Char) : List Char × List Char :=
  if "st".toList.isPrefixOf l || "nd".toList.isPrefixOf l
      || "rd".toList.isPrefixOf l || "th".toList.isPrefixOf l then
    (l.take 2, l.drop 2)
  else ([], l)

/-- Optional year group `(?:,? \d{4})?` — optional comma, a mandatory
space, exactly four digits; greedy optional. -/
def matchYearGroup (l : List Char) : List Char × List Char :=
  let (cm, r0) :=
    match l with
    | ',' :: r => (([','] : List Char), r)
    | _ => (([] : List Char), l)
  match r0 with
  | ' ' :: r1 =>
    let ds := r1.takeWhile Char.isDigit
    if 4 ≤ ds.length then (cm ++ ' ' :: ds.take 4, r1.drop 4) else ([], l)
  | _ => ([], l)

/-- Match of
`(?:jan|feb|...)[a-z]* \d{1,2}(?:st|nd|rd|th)?(?:,? \d{4})?`
anchored at the start of `l` (pattern 2 of `_extract_deadline`). -/
def matchMonthFirstDateAt (l : List Char) : Option (List Char) :=
  match matchMonthToken l with
  | none => none
  | some (tok, r1) =>
    let letters := r1.takeWhile isLowerAZ
    let r2 := r1.dropWhile isLowerAZ
    match r2 with
    | ' ' :: r3 =>
      let ds := r3.takeWhile Char.isDigit
      if ds.length = 0 then none
      else
        let dtaken := ds.take 2
        let r4 := r3.drop dtaken.length
        let (suf, r5) := matchOrdinalSuffix r4
        let (yg, _) := matchYearGroup r5
        some (tok ++ letters ++ ' ' :: dtaken ++ suf ++ yg)
    | _ => none

/-- Match of
`\d{1,2}(?:st|nd|rd|th)? (?:jan|feb|...)[a-z]*(?:,? \d{4})?`
anchored at the start of `l` (pattern 3 of `_extract_deadline`).  As in
pattern 1, a digit run longer than 2 cannot be completed. -/
def matchDayFirstDateAt (l : List Char) : Option (List Char) :=
  let ds := l.takeWhile Char.isDigit
  let r1 := l.dropWhile Char.isDigit
  if ds.length = 0 || 2 < ds.length then none
  else
    let (suf, r2) := matchOrdinalSuffix r1
    match r2 with
    | ' ' :: r3 =>
      match matchMonthToken r3 with
      | none => none
      | some (tok, r4) =>
        let letters := r4.takeWhile isLowerAZ
        let r5 := r4.dropWhile isLowerAZ
        let (yg, _) := matchYearGroup r5
        some (ds ++ suf ++ ' ' :: tok ++ letters ++ yg)
    | _ => none

/-! #### strptime over the fixed format list -/

/-- `strptime` directive `%m`: regex `1[0-2]|0[1-9]|[1-9]`, alternatives
tried in order. -/
def pMonthNum : List Char → Option (Nat × List Char)
  | c1 :: c2 :: r =>
    if c1 = '1' && ('0' ≤ c2 && c2 ≤ '2') then some (10 + digitVal c2, r)
    else if c1 = '0' && ('1' ≤ c2 && c2 ≤ '9') then some (digitVal c2, r)
    else if '1' ≤ c1 && c1 ≤ '9' then some (digitVal c1, c2 :: r)
    else none
  | [c1] => if '1' ≤ c1 && c1 ≤ '9' then some (digitVal c1, []) else none
  | [] => none

/-- `strptime` directive `%d`: regex `3[01]|[12]\d|0[1-9]|[1-9]`. -/
def pDayNum : List Char → Option (Nat × List Char)
  | c1 :: c2 :: r =>
    if c1 = '3' && (c2 = '0' || c2 = '1') then some (30 + digitVal c2, r)
    else if (c1 = '1' || c1 = '2') && c2.isDigit then some (10 * digitVal c1 + digitVal c2, r)
    else if c1 = '0' && ('1' ≤ c2 && c2 ≤ '9') then some (digitVal c2, r)
    else if '1' ≤ c1 && c1 ≤ '9' then some (digitVal c1, c2 :: r)
    else none
  | [c1] => if '1' ≤ c1 && c1 ≤ '9' then some (digitVal c1, []) else none
  | [] => none

/-- `strptime` directive `%Y`: exactly four digits. -/
def pYear4 (l : List Char) : Option (Nat × List Char) :=
  match l with
  | a :: b :: c :: d :: r =>
    if a.isDigit && b.isDigit && c.isDigit && d.isDigit then
      some (1000 * digitVal a + 100 * digitVal b + 10 * digitVal c + digitVal d, r)
    else none
  | _ => none

/-- `strptime` directive `%y`: exactly two digits; values below 69 map
into the 2000s, the rest into the 1900s. -/
def pYear2 (l : List Char) : Option (Nat × List Char) :=
  match l with
  | a :: b :: r =>
    if a.isDigit && b.isDigit then
      let v := 10 * digitVal a + digitVal b
      some (if v < 69 then 2000 + v else 1900 + v, r)
    else none
  | _ => none

/-- Whitespace in a `strptime` format string matches one or more
whitespace characters. -/
def pWs (l : List Char) : Option (List Char) :=
  let sp := l.takeWhile isPySpace
  if sp.length = 0 then none else some (l.dropWhile isPySpace)

def pLit (c : Char) (l : List Char) : Option (List Char) :=
  match l with
  | x :: r => if x = c then some r else none
  | [] => none

def monthNamesFull : List String :=
  ["january", "february", "march", "april", "may", "june",
   "july", "august", "september", "october", "november", "december"]

/-- `strptime` directive `%B` (full month name, case-insensitive — input
is lower-cased). -/
def pMonthFull (l : List Char) : Option (Nat × List Char) :=
  match (List.enumFrom 1 monthNamesFull).find? (fun p => p.2.toList.isPrefixOf l) with
  | some (idx, nm) => some (idx, l.drop nm.length)
  | none => none

/-- `strptime` directive `%b` (abbreviated month name). -/
def pMonthAbbr (l : List Char) : Option (Nat × List Char) :=
  match (List.enumFrom 1 monthTokens).find? (fun p => p.2.toList.isPrefixOf l) with
  | some (idx, nm) => some (idx, l.drop nm.length)
  | none => none

/-- Construction of the `datetime` after a successful directive parse:
`datetime(y, m, d)` validates the ranges and raises `ValueError`
otherwise (month and day lower bounds are already enforced by the
directive regexes). -/
def mkValidDate (y m d : Nat) : Option Date :=
  if 1 ≤ y && m ≤ 12 && 1 ≤ m && 1 ≤ d && d ≤ daysInMonth y m then
    some { year := y, month := m, day := d }
  else none

/-- Formats `%m/%d/%Y`, `%m-%d-%Y` (first component month). -/
def fmtMDY4 (sep : Char) (l : List Char) : Option Date := do
  let (m, r1) ← pMonthNum l
  let r2 ← pLit sep r1
  let (d, r3) ← pDayNum r2
  let r4 ← pLit sep r3
  let (y, r5) ← pYear4 r4
  if r5.isEmpty then mkValidDate y m d else none

/-- Formats `%d/%m/%Y`, `%d-%m-%Y`. -/
def fmtDMY4 (sep : Char) (l : List Char) : Option Date := do
  let (d, r1) ← pDayNum l
  let r2 ← pLit sep r1
  let (m, r3) ← pMonthNum r2
  let r4 ← pLit sep r3
  let (y, r5) ← pYear4 r4
  if r5.isEmpty then mkValidDate y m d else none

/-- Formats `%m/%d/%y`, `%m-%d-%y`. -/
def fmtMDY2 (sep : Char) (l : List Char) : Option Date := do
  let (m, r1) ← pMonthNum l
  let r2 ← pLit sep r1
  let (d, r3) ← pDayNum r2
  let r4 ← pLit sep r3
  let (y, r5) ← pYear2 r4
  if r5.isEmpty then mkValidDate y m d else none

/-- Formats `%B %d, %Y` / `%b %d, %Y` (with comma) and `%B %d %Y` /
`%b %d %Y` (without). -/
def fmtNameDY (monthParser : List Char → Option (Nat × List Char)) (comma : Bool)
    (l : List Char) : Option Date := do
  let (m, r1) ← monthParser l
  let r2 ← pWs r1
  let (d, r3) ← pDayNum r2
  let r4 ← (if comma then pLit ',' r3 else some r3)
  let r5 ← pWs r4
  let (y, r6) ← pYear4 r5
  if r6.isEmpty then mkValidDate y m d else none

/-- Formats `%d %B %Y` and `%d %b %Y`. -/
def fmtDNameY (monthParser : List Char → Option (Nat × List Char))
    (l : List Char) : Option Date := do
  let (d, r1) ← pDayNum l
  let r2 ← pWs r1
  let (m, r3) ← monthParser r2
  let r4 ← pWs r3
  let (y, r5) ← pYear4 r4
  if r5.isEmpty then mkValidDate y m d else none

/-- Embedding of `ActionExtractor._parse_date_string`: the `strptime`
format list tried in source order; the first success wins; every
failure is swallowed. -/
def parse_date_string (l : List Char) : Option Date :=
  (fmtMDY4 '/' l).orElse (fun _ =>
  (fmtMDY4 '-' l).orElse (fun _ =>
  (fmtDMY4 '/' l).orElse (fun _ =>
  (fmtDMY4 '-' l).orElse (fun _ =>
  (fmtMDY2 '/' l).orElse (fun _ =>
  (fmtMDY2 '-' l).orElse (fun _ =>
  (fmtNameDY pMonthFull true l).orElse (fun _ =>
  (fmtNameDY pMonthFull false l).orElse (fun _ =>
  (fmtNameDY pMonthAbbr true l).orElse (fun _ =>
  (fmtNameDY pMonthAbbr false l).orElse (fun _ =>
  (fmtDNameY pMonthFull l).orElse (fun _ =>
  (fmtDNameY pMonthAbbr l))))))))))))

/-- Embedding of `ActionExtractor._extract_deadline` on the lower-cased
combined text: the three date pattern classes in order (first match of a
class is parsed; an unparseable match falls through to the next class),
then the relative-date phrases in the source dict's insertion order. -/
def extract_deadline (today : Date) (text : List Char) : String :=
  match (findFirstMatch matchNumericDateAt text).bind parse_date_string with
  | some d => formatDate d
  | none =>
    match (findFirstMatch matchMonthFirstDateAt text).bind parse_date_string with
    | some d => formatDate d
    | none =>
      match (findFirstMatch matchDayFirstDateAt text).bind parse_date_string with
      | some d => formatDate d
      | none =>
        if containsWord text "friday".toList then get_relative_date today "friday"
        else if containsWord text "monday".toList then get_relative_date today "monday"
        else if containsWord text "tuesday".toList then get_relative_date today "tuesday"
        else if containsWord text "wednesday".toList then get_relative_date today "wednesday"
        else if containsWord text "thursday".toList then get_relative_date today "thursday"
        else if containsWord text "tomorrow".toList then get_relative_date today "tomorrow"
        else if containsWeekWord text then get_relative_date today "week"
        else if containsWord text "month".toList then get_relative_date today "month"
        else "None"

/-- C5: the spec's date-resolution round-trip instances, evaluated on
the code.  Three of the four hold: "02/05/2026" resolves to 2026-02-05,
"by Friday" on Monday 2026-01-26 resolves to Friday 2026-01-30, and
"end of month" on 2026-12-15 resolves to 2026-12-31.  The first
instance fails in the code: "Feb 5th, 2026" is captured by the
month-name regex (which deliberately allows the `st|nd|rd|th` ordinal
suffix), but `_parse_date_string` has no format accepting the suffix,
so every `strptime` attempt raises and the function returns "None"
instead of "2026-02-05" — contradicting the code's own comment that
dates like "January 5th" are supported. -/
theorem date_resolution_instances :
    extract_deadline { year := 2026, month := 1, day := 1 }
        (pyLower "Feb 5th, 2026").toList = "None"
    ∧ extract_deadline { year := 2026, month := 1, day := 1 }
        (pyLower "02/05/2026").toList = "2026-02-05"
    ∧ extract_deadline { year := 2026, month := 1, day := 26 }
        (pyLower "by Friday").toList = "2026-01-30"
    ∧ extract_deadline { year := 2026, month := 12, day := 15 }
        (pyLower "end of month").toList = "2026-12-31" := by
  exact ⟨rfl, rfl, rfl, rfl⟩

/-! ### Dual-path extraction: LLM path with deterministic fallback
(src/action_extractor.py, src/sentiment_analyzer.py,
src/calendar_service.py)

Each extractor first calls the Gemini model and parses its response as
JSON (after `strip()` and removal of markdown code fences); a response
that is not valid JSON triggers the deterministic rule path
(`except json.JSONDecodeError` inside `_extract_with_llm`), and any
other exception escaping `_extract_with_llm` is caught at the
`extract`/`analyze` boundary, which also falls back to the rule path.

The model call is embedded as an `Except Unit String` (raised, or the
response text); the stdlib `json.loads` as a `parse` parameter
returning `Option JValue`.  JSON numbers are embedded as exact
rationals.  On the parsed-JSON success branch, fields whose Python
dynamic type would neither be handled nor raise immediately (e.g. a
number where a string is stored unchecked) are embedded as the raised
outcome; every claim below concerns only the parse-failure branch,
which is exact. -/

inductive JValue where
  | jnull : JValue
  | jbool : Bool → JValue
  | jnum : ℚ → JValue
  | jstr : String → JValue
  | jarr : List JValue → JValue
  | jobj : List (String × JValue) → JValue

/-- Python truthiness of a JSON value. -/
def jTruthy : JValue → Bool
  | .jnull => false
  | .jbool b => b
  | .jnum q => ! (q = 0)
  | .jstr s => ! (s = "")
  | .jarr a => ! a.isEmpty
  | .jobj f => ! f.isEmpty

/-- Python `dict.get(key, default)` on a parsed JSON object. -/
def jGet (j : JValue) (key : String) (default : JValue) : JValue :=
  match j with
  | .jobj fs =>
    match fs.find? (fun p => p.1 == key) with
    | some p => p.2
    | none => default
  | _ => default

/-- Python string slice `s[:n]`. -/
def pyTakeStr (n : Nat) (s : String) : String :=
  String.mk (s.toList.take n)

/-- Python `str.strip()` on strings. -/
def pyStripStr (s : String) : String :=
  String.mk (pyStripChars s.toList)

/-- Fueled scanner for `re.sub(r'```json\s*|\s*```', '', t)`: at each
position the first alternative (literal ```` ```json ```` plus trailing
whitespace) is tried, then the second (a whitespace run directly
followed by three backticks — the greedy `\s*` backtracks only to the
end of the run, since a backtick is not whitespace); a match is deleted
and scanning resumes after it.  Each step consumes at least one
character, so `l.length` fuel processes all of `l`. -/
def stripFenceGo : Nat → List Char → List Char
  | 0, l => l
  | _ + 1, [] => []
  | fuel + 1, c :: t =>
    if "```json".toList.isPrefixOf (c :: t) then
      stripFenceGo fuel (((c :: t).drop 7).dropWhile isPySpace)
    else
      let r := (c :: t).dropWhile isPySpace
      if "```".toList.isPrefixOf r then
        stripFenceGo fuel (r.drop 3)
      else
        c :: stripFenceGo fuel t

def stripFence (s : String) : String :=
  String.mk (stripFenceGo s.toList.length s.toList)

/-! #### Action extractor -/

structure ActionResult where
  actions : String
  due_date : String
deriving DecidableEq

def isSentenceEnd (c : Char) : Bool :=
  c = '.' || c = '!' || c = '?'

/-- Fueled `re.split(r'[.!?]+', text)`: pieces between maximal runs of
sentence terminators, empty edge pieces kept. -/
def splitSentencesGo : Nat → List Char → List (List Char)
  | 0, l => [l]
  | _ + 1, [] => [[]]
  | fuel + 1, l =>
    let piece := l.takeWhile (fun c => ! isSentenceEnd c)
    let rest := l.dropWhile (fun c => ! isSentenceEnd c)
    match rest with
    | [] => [piece]
    | _ => piece :: splitSentencesGo fuel (rest.dropWhile isSentenceEnd)

def splitSentences (l : List Char) : List (List Char) :=
  splitSentencesGo l.length l

def upperChar (c : Char) : Char :=
  if 'a' ≤ c && c ≤ 'z' then Char.ofNat (c.toNat - 32) else c

/-- Python `str.capitalize()` (ASCII): first character upper-cased, the
rest lower-cased. -/
def pyCapitalize (l : List Char) : List Char :=
  match l with
  | [] => []
  | c :: t => upperChar c :: t.map lowerChar

/-- Embedding of `ActionExtractor._extract_with_rules`.
`config.ACTION_KEYWORDS` is not defined in the committed `config.py`,
so the keyword list is a parameter; `datetime.now()` inside the
deadline resolution is the explicit `today`. -/
def actionExtractWithRules (action_keywords : List String) (today : Date)
    (subject content : String) : ActionResult :=
  let combined_text := pyLower (subject ++ " " ++ content)
  let sentences := splitSentences combined_text.toList
  let actions := sentences.filterMap (fun sentence =>
    if action_keywords.any (fun kw => listHasSub kw.toList sentence) then
      let cleaned := pyStripChars sentence
      if 10 < cleaned.length && cleaned.length < 200 then
        some (String.mk (pyCapitalize cleaned))
      else none
    else none)
  let deadline := extract_deadline today combined_text.toList
  let actions_str :=
    if actions.isEmpty then "None"
    else String.intercalate "; " (actions.take 3)
  { actions := pyTakeStr 500 actions_str, due_date := deadline }

/-- Success-branch handling of the parsed JSON in
`ActionExtractor._extract_with_llm` (after `json.loads` succeeded).
Shapes on which Python would raise at `'; '.join(...)` or at the
`deadlines[0]` indexing are the raised outcome; a non-object parse
result raises at `.get`. -/
def actionHandleJson (j : JValue) : Except Unit ActionResult :=
  match j with
  | .jobj _ =>
    let actionsJ := jGet j "actions" (.jarr [])
    let deadlinesJ := jGet j "deadlines" (.jarr [])
    let actionsStr : Except Unit String :=
      if ! jTruthy actionsJ then .ok "None"
      else
        match actionsJ with
        | .jarr as =>
          match as.mapM (fun a => match a with | .jstr s => some s | _ => none) with
          | some strs => .ok (String.intercalate "; " strs)
          | none => .error ()
        | _ => .error ()
    let dueDate : Except Unit String :=
      if ! jTruthy deadlinesJ then .ok "None"
      else
        match deadlinesJ with
        | .jarr (d :: _) =>
          match d with
          | .jstr s => .ok (if s = "None" then "None" else s)
          | _ => .error ()
        | _ => .error ()
    match actionsStr, dueDate with
    | .ok a, .ok d => .ok { actions := pyTakeStr 500 a, due_date := d }
    | _, _ => .error ()
  | _ => .error ()

/-- Embedding of `ActionExtractor._extract_with_llm` given the model's
response text: strip, remove code fences, parse; a parse failure
returns the rule path's result (`except json.JSONDecodeError`). -/
def actionExtractWithLLM (parse : String → Option JValue)
    (action_keywords : List String) (today : Date)
    (llmText subject content : String) : Except Unit ActionResult :=
  let result_text := stripFence (pyStripStr llmText)
  match parse result_text with
  | none => .ok (actionExtractWithRules action_keywords today subject content)
  | some j => actionHandleJson j

/-- Embedding of `ActionExtractor.extract`: feature-flag gate, content
cap at 2000 characters, LLM-first with any escaping exception falling
back to the rule path. -/
def actionExtract (enable use_llm : Bool) (parse : String → Option JValue)
    (action_keywords : List String) (today : Date) (llm : Except Unit String)
    (subject content : String) : ActionResult :=
  if enable = false then { actions := "None", due_date := "None" }
  else
    let content := pyTakeStr 2000 content
    if use_llm then
      match llm with
      | .error _ => actionExtractWithRules action_keywords today subject content
      | .ok t =>
        match actionExtractWithLLM parse action_keywords today t subject content with
        | .ok r => r
        | .error _ => actionExtractWithRules action_keywords today subject content
    else actionExtractWithRules action_keywords today subject content

/-! #### Sentiment analyzer -/

/-- Success-branch handling of the parsed JSON in
`SentimentAnalyzer._analyze_with_llm`: the sentiment label must be a
string (`.lower()`), the urgency score goes through `float(...)` — a
string there raises `ValueError`, which the method's own handler turns
into the rule path; `None`/lists/dicts raise `TypeError`, which
escapes.  The label is validated against the fixed enum, the score
clamped to [0, 1] and rounded. -/
def sentimentHandleJson (subject content : String) (j : JValue) :
    Except Unit SentimentResult :=
  match j with
  | .jobj _ =>
    match jGet j "sentiment" (.jstr "neutral") with
    | .jstr sRaw =>
      let sentiment := pyLower sRaw
      let score : Except Unit (Option ℚ) :=
        match jGet j "urgency_score" (.jnum (1/2)) with
        | .jnum q => .ok (some q)
        | .jbool b => .ok (some (if b then 1 else 0))
        | .jstr _ => .ok none
        | _ => .error ()
      match score with
      | .error _ => .error ()
      | .ok none => .ok (analyze_with_rules subject content)
      | .ok (some q) =>
        let sentiment :=
          if sentiment ∈ ["positive", "neutral", "negative", "urgent"] then sentiment
          else "neutral"
        let urgency_score := max 0 (min 1 q)
        .ok { sentiment := sentiment, urgency_score := round2 urgency_score }
    | _ => .error ()
  | _ => .error ()

/-- Embedding of `SentimentAnalyzer._analyze_with_llm` given the model's
response text; a JSON parse failure (or a `ValueError` from the score
conversion) returns the rule path's result. -/
def sentimentAnalyzeWithLLM (parse : String → Option JValue)
    (llmText subject content : String) : Except Unit SentimentResult :=
  let result_text := stripFence (pyStripStr llmText)
  match parse result_text with
  | none => .ok (analyze_with_rules subject content)
  | some j => sentimentHandleJson subject content j

/-- Embedding of `SentimentAnalyzer.analyze`: feature-flag gate, content
cap at 1500 characters, LLM-first with any escaping exception falling
back to the rule path. -/
def sentimentAnalyze (enable use_llm : Bool) (parse : String → Option JValue)
    (llm : Except Unit String) (subject content : String) : SentimentResult :=
  if enable = false then { sentiment := "neutral", urgency_score := 1/2 }
  else
    let content := pyTakeStr 1500 content
    if use_llm then
      match llm with
      | .error _ => analyze_with_rules subject content
      | .ok t =>
        match sentimentAnalyzeWithLLM parse t subject content with
        | .ok r => r
        | .error _ => analyze_with_rules subject content
    else analyze_with_rules subject content

/-! #### Calendar event extractor -/

structure EventDetails where
  title : String
  date : String
  time : String
  duration : ℚ
  location : String
  description : String
deriving DecidableEq

/-- `CalendarService._parse_date_string`: as the action extractor's but
without the day-first month-name formats. -/
def parse_date_string_cal (l : List Char) : Option Date :=
  (fmtMDY4 '/' l).orElse (fun _ =>
  (fmtMDY4 '-' l).orElse (fun _ =>
  (fmtDMY4 '/' l).orElse (fun _ =>
  (fmtDMY4 '-' l).orElse (fun _ =>
  (fmtMDY2 '/' l).orElse (fun _ =>
  (fmtMDY2 '-' l).orElse (fun _ =>
  (fmtNameDY pMonthFull true l).orElse (fun _ =>
  (fmtNameDY pMonthFull false l).orElse (fun _ =>
  (fmtNameDY pMonthAbbr true l).orElse (fun _ =>
  (fmtNameDY pMonthAbbr false l))))))))))

/-- Embedding of `CalendarService._extract_date`: numeric and month-name
patterns, then plain substring checks for "tomorrow" and "next week". -/
def calExtractDate (today : Date) (text : List Char) : Option String :=
  match (findFirstMatch matchNumericDateAt text).bind parse_date_string_cal with
  | some d => some (formatDate d)
  | none =>
    match (findFirstMatch matchMonthFirstDateAt text).bind parse_date_string_cal with
    | some d => some (formatDate d)
    | none =>
      if listHasSub "tomorrow".toList text then some (formatDate (addDays 1 today))
      else if listHasSub "next week".toList text then some (formatDate (addDays 7 today))
      else none

/-- Match of `(\d{1,2}):(\d{2})\s*(am|pm)?` anchored at the start of
`l`, returning the three groups (a digit run longer than two cannot be
completed before the colon). -/
def matchTime1At (l : List Char) : Option (Nat × Nat × Option (List Char)) :=
  let ds := l.takeWhile Char.isDigit
  let r1 := l.dropWhile Char.isDigit
  if ds.length = 0 || 2 < ds.length then none
  else
    match r1 with
    | ':' :: r2 =>
      match r2 with
      | m1 :: m2 :: r3 =>
        if m1.isDigit && m2.isDigit then
          let hour := ds.foldl (fun a c => 10 * a + digitVal c) 0
          let minute := 10 * digitVal m1 + digitVal m2
          let r4 := r3.dropWhile isPySpace
          let period :=
            if "am".toList.isPrefixOf r4 then some "am".toList
            else if "pm".toList.isPrefixOf r4 then some "pm".toList
            else none
          some (hour, minute, period)
        else none
      | _ => none
    | _ => none

/-- Match of `(\d{1,2})\s*(am|pm)` anchored at the start of `l`. -/
def matchTime2At (l : List Char) : Option (Nat × List Char) :=
  let ds := l.takeWhile Char.isDigit
  let r1 := l.dropWhile Char.isDigit
  if ds.length = 0 || 2 < ds.length then none
  else
    let r2 := r1.dropWhile isPySpace
    if "am".toList.isPrefixOf r2 then
      some (ds.foldl (fun a c => 10 * a + digitVal c) 0, "am".toList)
    else if "pm".toList.isPrefixOf r2 then
      some (ds.foldl (fun a c => 10 * a + digitVal c) 0, "pm".toList)
    else none

/-- Leftmost-match scan for the time matchers. -/
def findFirstTime1 : List Char → Option (Nat × Nat × Option (List Char))
  | [] => matchTime1At []
  | c :: t =>
    match matchTime1At (c :: t) with
    | some m => some m
    | none => findFirstTime1 t

def findFirstTime2 : List Char → Option (Nat × List Char)
  | [] => matchTime2At []
  | c :: t =>
    match matchTime2At (c :: t) with
    | some m => some m
    | none => findFirstTime2 t

/-- Embedding of `CalendarService._extract_time`: the first time pattern
that matches wins; 12-hour periods are folded into 24-hour form
(`pm` adds 12 below noon, `12am` becomes 0); no range validation. -/
def calExtractTime (text : List Char) : Option String :=
  match findFirstTime1 text with
  | some (hour, minute, period) =>
    let hour :=
      if period = some "pm".toList && hour < 12 then hour + 12
      else if period = some "am".toList && hour = 12 then 0
      else hour
    some (pad2 hour ++ ":" ++ pad2 minute)
  | none =>
    match findFirstTime2 text with
    | some (hour, period) =>
      let hour :=
        if period = "pm".toList && hour < 12 then hour + 12
        else if period = "am".toList && hour = 12 then 0
        else hour
      some (pad2 hour ++ ":00")
    | none => none

/-- Embedding of `CalendarService._extract_with_rules`.
`config.DEFAULT_EVENT_DURATION_MINUTES` is not defined in the committed
`config.py`, so it is a parameter. -/
def calendarExtractWithRules (today : Date) (defaultDuration : ℚ)
    (subject content : String) : Option EventDetails :=
  let combined := pyLower (subject ++ " " ++ content)
  match calExtractDate today combined.toList with
  | none => none
  | some event_date =>
    let event_time := calExtractTime combined.toList
    let event_title :=
      if listHasSub "interview".toList combined.toList then "Interview: " ++ subject
      else if listHasSub "meeting".toList combined.toList then "Meeting: " ++ subject
      else subject
    some
      { title := pyTakeStr 100 event_title
        date := event_date
        time := event_time.getD "09:00"
        duration := defaultDuration
        location :=
          if listHasSub "zoom".toList combined.toList
              || listHasSub "teams".toList combined.toList then "Online"
          else "TBD"
        description := pyTakeStr 500 content }

/-- Validation `datetime.strptime(date, '%Y-%m-%d')` performed on the
LLM-provided event date. -/
def validYMD (s : String) : Bool :=
  match pYear4 s.toList with
  | none => false
  | some (y, r1) =>
    match pLit '-' r1 with
    | none => false
    | some r2 =>
      match pMonthNum r2 with
      | none => false
      | some (m, r3) =>
        match pLit '-' r3 with
        | none => false
        | some r4 =>
          match pDayNum r4 with
          | none => false
          | some (d, r5) => r5.isEmpty && (mkValidDate y m d).isSome

/-- Success-branch handling of the parsed JSON in
`CalendarService._extract_with_llm`: falsy `has_event` yields no event;
a falsy date yields no event; a malformed date string raises
`ValueError`, which the method's own handler turns into the rule path;
remaining fields are adopted with their defaults. -/
def calendarHandleJson (today : Date) (defaultDuration : ℚ)
    (subject content : String) (j : JValue) : Except Unit (Option EventDetails) :=
  match j with
  | .jobj _ =>
    if ! jTruthy (jGet j "has_event" (.jbool false)) then .ok none
    else
      let dateJ := jGet j "event_date" .jnull
      if ! jTruthy dateJ then .ok none
      else
        match dateJ with
        | .jstr ds =>
          if ! validYMD ds then
            .ok (calendarExtractWithRules today defaultDuration subject content)
          else
            match jGet j "event_title" (.jstr subject),
                jGet j "event_time" (.jstr "09:00"),
                jGet j "duration_minutes" (.jnum defaultDuration),
                jGet j "location" (.jstr "Online"),
                jGet j "description" (.jstr (pyTakeStr 500 content)) with
            | .jstr title, .jstr time, .jnum dur, .jstr loc, .jstr desc =>
              .ok (some { title := title, date := ds, time := time,
                          duration := dur, location := loc, description := desc })
            | _, _, _, _, _ => .error ()
        | _ => .error ()
  | _ => .error ()

/-- Embedding of `CalendarService._extract_with_llm` given the model's
response text; a JSON parse failure (or a `ValueError` from the date
validation) returns the rule path's result. -/
def calendarExtractWithLLM (parse : String → Option JValue) (today : Date)
    (defaultDuration : ℚ) (llmText subject content : String) :
    Except Unit (Option EventDetails) :=
  let result_text := stripFence (pyStripStr llmText)
  match parse result_text with
  | none => .ok (calendarExtractWithRules today defaultDuration subject content)
  | some j => calendarHandleJson today defaultDuration subject content j

/-- Embedding of `CalendarService.extract_event_details`: content cap at
2000 characters, LLM-first with any escaping exception falling back to
the rule path. -/
def calendarExtractEventDetails (use_llm : Bool) (parse : String → Option JValue)
    (today : Date) (defaultDuration : ℚ) (llm : Except Unit String)
    (subject content : String) : Option EventDetails :=
  let content := pyTakeStr 2000 content
  if use_llm then
    match llm with
    | .error _ => calendarExtractWithRules today defaultDuration subject content
    | .ok t =>
      match calendarExtractWithLLM parse today defaultDuration t subject content with
      | .ok r => r
      | .error _ => calendarExtractWithRules today defaultDuration subject content
  else calendarExtractWithRules today defaultDuration subject content

/-- C6: whenever the model's response text is not valid JSON after
stripping markdown code fences, each extractor — action items,
sentiment, calendar event — returns exactly what its deterministic rule
path returns on the same subject and (length-capped) content, and every
failure path is caught (the embeddings are total functions into the
result types, mirroring the source's catch-all handlers). -/
theorem llm_invalid_json_fallback (parse : String → Option JValue)
    (resp : String) (action_keywords : List String) (today : Date)
    (defaultDuration : ℚ) (subject content : String)
    (h : parse (stripFence (pyStripStr resp)) = none) :
    actionExtract true true parse action_keywords today (.ok resp) subject content
        = actionExtractWithRules action_keywords today subject (pyTakeStr 2000 content)
    ∧ sentimentAnalyze true true parse (.ok resp) subject content
        = analyze_with_rules subject (pyTakeStr 1500 content)
    ∧ calendarExtractEventDetails true parse today defaultDuration (.ok resp) subject content
        = calendarExtractWithRules today defaultDuration subject (pyTakeStr 2000 content) := by
  refine ⟨?_, ?_, ?_⟩
  · simp [actionExtract, actionExtractWithLLM, h]
  · simp [sentimentAnalyze, sentimentAnalyzeWithLLM, h]
  · simp [calendarExtractEventDetails, calendarExtractWithLLM, h]

/-- Witness for `llm_invalid_json_fallback` at a concrete non-JSON
response and concrete inputs. -/
theorem llm_invalid_json_fallback_witness :
    actionExtract true true (fun _ => none) ["please"]
        { year := 2026, month := 1, day := 1 } (.ok "oops") "hello" "world"
      = actionExtractWithRules ["please"] { year := 2026, month := 1, day := 1 }
          "hello" (pyTakeStr 2000 "world")
    ∧ sentimentAnalyze true true (fun _ => none) (.ok "oops") "hello" "world"
      = analyze_with_rules "hello" (pyTakeStr 1500 "world")
    ∧ calendarExtractEventDetails true (fun _ => none)
        { year := 2026, month := 1, day := 1 } 60 (.ok "oops") "hello" "world"
      = calendarExtractWithRules { year := 2026, month := 1, day := 1 } 60
          "hello" (pyTakeStr 2000 "world") :=
  llm_invalid_json_fallback (fun _ => none) "oops" ["please"]
    { year := 2026, month := 1, day := 1 } 60 "hello" "world" rfl

end MailSync
